import Mathlib

/-!
Verification of the news filtering / batching / retry core of the
portfolio-intelligence pipeline.

Shallow embedding conventions:
  * Python `str` is modelled as `List Char`; string literals appear as
    `"...".toList`.
  * Python numbers (invested amounts, similarity scores) are modelled as
    exact rationals `ℚ`.
  * Timestamps are modelled as integer epoch seconds; `datetime.now()`
    becomes an explicit `now : Int` parameter and `timedelta(days = d)`
    becomes `d * 86400`.
  * External collaborators (the Gemini `generate_content` call, the JSON
    parser, the rapidfuzz `partial_ratio` scorer, the per-stock prompt
    formatter with its float rendering) are threaded as explicit function
    parameters; the analysis control flow never depends on their internals.
  * Bounded loops are written with structural recursion (an explicit fuel
    argument mirrors `for`-loop bounds where needed) so that every
    definition evaluates by kernel reduction.
-/

/-- The ASCII whitespace class used by Python `str.split()` / `\s`
(space, tab, newline, carriage return, vertical tab, form feed). -/
def pyIsSpace (c : Char) : Bool :=
  c == ' ' || c == '\t' || c == '\n' || c == '\r' || c == '\x0b' || c == '\x0c'

/-- Helper for `pySplit`: walks the text accumulating the current word
(in reverse) and emitting it when whitespace or the end is reached.
Mirrors Python `str.split()` with no arguments: maximal runs of
non-whitespace characters, empty words never produced. -/
def pySplitAux : List Char → List Char → List (List Char)
  | [], acc => if acc.isEmpty then [] else [acc.reverse]
  | c :: cs, acc =>
    if pyIsSpace c then
      if acc.isEmpty then pySplitAux cs [] else acc.reverse :: pySplitAux cs []
    else pySplitAux cs (c :: acc)

/-- Python `text.split()` (split on whitespace, dropping empty fields). -/
def pySplit (s : List Char) : List (List Char) := pySplitAux s []

/-- Python `sep.join(words)`. -/
def pyJoin (sep : List Char) : List (List Char) → List Char
  | [] => []
  | [w] => w
  | w :: ws => w ++ sep ++ pyJoin sep ws

/-- Python `s.strip()` (drop leading and trailing whitespace). -/
def pyStrip (s : List Char) : List Char :=
  ((s.dropWhile pyIsSpace).reverse.dropWhile pyIsSpace).reverse

/-- Helper for `squashWs`: the flag records whether the previous
character belonged to a whitespace run (already emitted as one space). -/
def squashWsAux : Bool → List Char → List Char
  | _, [] => []
  | inRun, c :: cs =>
    if pyIsSpace c then
      if inRun then squashWsAux true cs else ' ' :: squashWsAux true cs
    else c :: squashWsAux false cs

/-- `re.sub(r"\s+", " ", ·)`: every maximal whitespace run is replaced
by a single space (the first character of a run emits the space, the
rest are skipped). -/
def squashWs (s : List Char) : List Char := squashWsAux false s

/-- Python `hay.replace(pat, rep)` for a non-empty pattern: all
non-overlapping occurrences, scanned left to right.  (The source never
calls `replace` with an empty pattern.) -/
def replaceAll (pat rep : List Char) : List Char → List Char
  | [] => []
  | c :: cs =>
    if pat.isPrefixOf (c :: cs) && !pat.isEmpty then
      rep ++ replaceAll pat rep (cs.drop (pat.length - 1))
    else c :: replaceAll pat rep cs
termination_by s => s.length
decreasing_by
  · simp only [List.length_cons, List.length_drop]
    omega
  · simp

/-- Python `needle in hay` on strings (substring test). -/
def strHas (hay needle : List Char) : Bool := decide (needle <:+: hay)

/-- Python `s.lower()` (ASCII model). -/
def pyLower (s : List Char) : List Char := s.map Char.toLower

-- ═══════════════════════════════════════════════════════════════════
-- Data model (config/settings.py records and loosely-typed dicts)
-- ═══════════════════════════════════════════════════════════════════

/-- A portfolio holding (`stock` dict from sheet_reader).  Optional
fields model `dict.get` key absence. -/
structure Stock where
  ticker : Option (List Char) := none
  name : Option (List Char) := none
  yahoo_ticker : Option (List Char) := none
  market : Option (List Char) := none
  sector : Option (List Char) := none
  invested_inr : Option ℚ := none
  gain_pct : Option ℚ := none
  profit_inr : Option ℚ := none
deriving DecidableEq

/-- A news article dict as produced by `fetch_rss_feed` (title, link,
summary, source always set; `published` optional; `body` only present
when scraped). -/
structure Article where
  title : List Char := []
  link : List Char := []
  summary : List Char := []
  published : Option Int := none
  source : List Char := []
  body : Option (List Char) := none
deriving DecidableEq

/-- One value of the filtered-news map: `{"stock": ..., "articles": ...}`. -/
structure HoldingData where
  stock : Stock
  articles : List Article
deriving DecidableEq

/-- One per-holding analysis dict.  The first seven fields are the keys
requested from Gemini; the remaining ones are merged in afterwards by
`run_daily_analysis` (absent until then). -/
structure AnalysisResult where
  ticker : List Char := []
  sentiment : List Char := []
  summary : List Char := []
  priority : List Char := []
  priority_reason : List Char := []
  action_hint : List Char := []
  thesis_status : List Char := []
  name : Option (List Char) := none
  market : Option (List Char) := none
  sector : Option (List Char) := none
  gain_pct : Option ℚ := none
  profit_inr : Option ℚ := none
  invested_inr : Option ℚ := none
deriving DecidableEq

-- settings.py constants used by the core
def NEWS_DAYS_BACK : Int := 1
def MAX_ARTICLES_PER_STOCK : Nat := 5
def MAX_WORDS_PER_ARTICLE : Nat := 300
def FUZZY_MATCH_THRESHOLD : ℚ := 70
def GEMINI_BATCH_SIZE : Nat := 5
def GEMINI_MODEL : List Char := "gemini-2.5-flash-lite".toList

/-- settings.py `TICKER_ALIASES` (identifier → name variants). -/
def TICKER_ALIASES : List (List Char × List (List Char)) :=
  [ ("INFY".toList, ["Infosys".toList, "Infy".toList]),
    ("NSE:INFY".toList, ["Infosys".toList, "Infy".toList]),
    ("TCS".toList, ["Tata Consultancy".toList, "TCS".toList]),
    ("NSE:TCS".toList, ["Tata Consultancy".toList, "TCS".toList]),
    ("HCLTECH".toList, ["HCL Technologies".toList, "HCL Tech".toList, "HCL".toList]),
    ("NSE:BEL".toList, ["Bharat Electronics".toList, "BEL".toList]),
    ("TMPV".toList, ["Tata Motors".toList, "Tata Motor".toList]),
    ("TATAPOWER".toList, ["Tata Power".toList]),
    ("RELIANCE".toList, ["Reliance Industries".toList, "Reliance Jio".toList, "Reliance Retail".toList, "RIL".toList]),
    ("INDIGO".toList, ["IndiGo".toList, "Interglobe Aviation".toList, "InterGlobe".toList]),
    ("NEWGEN".toList, ["Newgen Software".toList, "Newgen".toList]),
    ("LT".toList, ["Larsen & Toubro".toList, "L&T".toList, "Larsen Toubro".toList]),
    ("AFFLE".toList, ["Affle India".toList, "Affle".toList]),
    ("VBL".toList, ["Varun Beverages".toList, "Varun Bev".toList]),
    ("FEDERALBNK".toList, ["Federal Bank".toList]),
    ("NSE:ITC".toList, ["ITC Limited".toList, "ITC".toList]),
    ("MAPMYINDIA".toList, ["CE Info System".toList, "MapmyIndia".toList, "CE Info".toList]),
    ("IDFCFIRSTB".toList, ["IDFC First Bank".toList, "IDFC First".toList]),
    ("KPITTECH".toList, ["KPIT Technologies".toList, "KPIT Tech".toList, "KPIT".toList]),
    ("NSE:UPL".toList, ["UPL Limited".toList, "UPL".toList]),
    ("DIXON".toList, ["Dixon Technologies".toList, "Dixon Tech".toList]),
    ("WIPRO".toList, ["Wipro".toList]),
    ("HDFCBANK".toList, ["HDFC Bank".toList, "HDFC".toList]),
    ("TVSSCS".toList, ["TVS Supply Chain".toList, "TVS SCS".toList]),
    ("SUZLON".toList, ["Suzlon Energy".toList, "Suzlon".toList]),
    ("ARE&M".toList, ["Amara Raja".toList, "Amara Raja Energy".toList, "Amara Raja Batteries".toList]),
    ("BECTORFOOD".toList, ["Mrs Bectors Food".toList, "Mrs Bectors".toList, "Bectors".toList]),
    ("SBICARD".toList, ["SBI Cards".toList, "SBI Card".toList]),
    ("DRREDDY".toList, ["Dr Reddys".toList, "Dr. Reddy".toList, "Dr Reddy Labs".toList]),
    ("IKIO".toList, ["IKIO Lighting".toList, "IKIO".toList]),
    ("M&M".toList, ["Mahindra".toList, "Mahindra & Mahindra".toList, "M&M".toList]),
    ("AMZN".toList, ["Amazon".toList, "Amazon.com".toList]),
    ("AAPL".toList, ["Apple".toList]),
    ("GOOGL".toList, ["Google".toList, "Alphabet".toList]),
    ("MSFT".toList, ["Microsoft".toList]),
    ("NVDA".toList, ["Nvidia".toList, "NVIDIA".toList]),
    ("AMD".toList, ["AMD".toList, "Advanced Micro Devices".toList]),
    ("ADBE".toList, ["Adobe".toList]),
    ("QQQ".toList, ["Invesco QQQ".toList, "QQQ ETF".toList, "Nasdaq ETF".toList]),
    ("CRWD".toList, ["CrowdStrike".toList, "Crowdstrike".toList]),
    ("META".toList, ["Meta".toList, "Meta Platforms".toList, "Facebook".toList]),
    ("SOFI".toList, ["SoFi Technologies".toList, "SoFi".toList]),
    ("JNJ".toList, ["Johnson & Johnson".toList, "J&J".toList]),
    ("ARM".toList, ["Arm Holdings".toList, "ARM Holdings".toList]),
    ("SNOW".toList, ["Snowflake".toList]),
    ("PLTR".toList, ["Palantir".toList]),
    ("INTC".toList, ["Intel".toList]),
    ("NU".toList, ["Nu Holdings".toList, "Nubank".toList]),
    ("RDDT".toList, ["Reddit".toList]),
    ("MNDY".toList, ["Monday.com".toList]),
    ("NET".toList, ["Cloudflare".toList]),
    ("AVGO".toList, ["Broadcom".toList]),
    ("TSM".toList, ["TSMC".toList, "Taiwan Semiconductor".toList]),
    ("UBER".toList, ["Uber".toList]),
    ("PYPL".toList, ["PayPal".toList]),
    ("QTUM".toList, ["Defiance Quantum".toList, "QTUM ETF".toList]),
    ("DDOG".toList, ["Datadog".toList]),
    ("QCOM".toList, ["Qualcomm".toList]),
    ("SYM".toList, ["Symbotic".toList]),
    ("VXUS".toList, ["Vanguard Total International".toList, "VXUS ETF".toList]) ]

-- ═══════════════════════════════════════════════════════════════════
-- src/news_filter.py
-- ═══════════════════════════════════════════════════════════════════

/-- Python `set.add`: membership-tested insert.  The source collects
aliases in a `set`; every consumer only scans the collection
disjunctively, so the (unordered) set is modelled as a duplicate-free
list — iteration order is immaterial to every use. -/
def setAdd (l : List (List Char)) (x : List Char) : List (List Char) :=
  if x ∈ l then l else l ++ [x]

/-- `get_aliases_for_stock`: all known name variants for a holding
(lowercased), from the identifiers, the `TICKER_ALIASES` table, the
company name, and the first name word of length ≥ 4. -/
def get_aliases_for_stock (stock : Stock) : List (List Char) :=
  let ticker := stock.ticker.getD []
  let name := stock.name.getD []
  let yahoo_ticker := stock.yahoo_ticker.getD ticker
  let aliases := setAdd (setAdd [] (pyLower ticker)) (pyLower yahoo_ticker)
  let keys := [ticker, yahoo_ticker,
               replaceAll "NSE:".toList [] ticker,
               replaceAll "BSE:".toList [] ticker]
  let aliases := keys.foldl (fun acc key =>
    match TICKER_ALIASES.find? (fun kv => kv.1 == key) with
    | some kv => kv.2.foldl (fun acc2 a => setAdd acc2 (pyLower a)) acc
    | none => acc) aliases
  if name ≠ [] then
    let aliases := setAdd aliases (pyLower name)
    let words := (pySplit name).filter (fun w => 4 ≤ w.length)
    match words with
    | w :: _ => setAdd aliases (pyLower w)
    | [] => aliases
  else aliases

/-- `is_article_relevant`: trusted per-ticker feeds are accepted
unconditionally; sector-feed articles must match an alias, either as an
exact substring of lowercased title+summary or with a fuzzy
partial-containment score ≥ `FUZZY_MATCH_THRESHOLD`.  The rapidfuzz
`fuzz.partial_ratio` scorer is an external library, threaded as the
parameter `pSim` (the trusted branch never consults it). -/
def is_article_relevant (pSim : List Char → List Char → ℚ)
    (article : Article) (stock : Stock) (from_sector_feed : Bool) : Bool :=
  if !from_sector_feed then
    true
  else
    let text := pyLower (article.title ++ " ".toList ++ article.summary)
    let aliases := get_aliases_for_stock stock
    aliases.any fun al =>
      -- `if not alias or len(alias) < 3: continue` (empty ⇒ length 0 < 3)
      if al.length < 3 then false
      else strHas text al || decide (pSim al text ≥ FUZZY_MATCH_THRESHOLD)

/-- `normalize_for_dedup`: lowercase, strip every character outside
`[a-z0-9\s]`, collapse whitespace runs, strip ends. -/
def normalize_for_dedup (title : List Char) : List Char :=
  let t := pyLower title
  let t := t.filter (fun c => ('a' ≤ c && c ≤ 'z') || ('0' ≤ c && c ≤ '9') || pyIsSpace c)
  pyStrip (squashWs t)

/-- Longest-common-subsequence length with an explicit fuel argument
(structural recursion; every recursive call shortens the combined input
by one character, so `fuel = a.length + b.length` never runs out). -/
def lcsLenGo : Nat → List Char → List Char → Nat
  | _, [], _ => 0
  | _, _ :: _, [] => 0
  | 0, _ :: _, _ :: _ => 0
  | fuel + 1, a :: as, b :: bs =>
    if a = b then lcsLenGo fuel as bs + 1
    else max (lcsLenGo fuel (a :: as) bs) (lcsLenGo fuel as (b :: bs))

/-- Longest-common-subsequence length of two strings. -/
def lcsLen (a b : List Char) : Nat := lcsLenGo (a.length + b.length) a b

/-- rapidfuzz `fuzz.ratio`: normalized InDel similarity on a 0–100
scale, `100 * (1 - indel_distance / (len a + len b))`; since
`indel_distance = len a + len b - 2 * lcs`, this is
`200 * lcs / (len a + len b)` (100 for two empty strings). -/
def indelSim (a b : List Char) : ℚ :=
  if a.length + b.length = 0 then 100
  else (200 * lcsLen a b) / (a.length + b.length)

/-- Lexicographic comparison of strings by code point, as used by
Python `sorted` on `str`. -/
def lexLe : List Char → List Char → Bool
  | [], _ => true
  | _ :: _, [] => false
  | a :: as, b :: bs => if a = b then lexLe as bs else decide (a < b)

/-- Insert `x` into `l` before the first element `y` with `le x y`
(keeps a stable order for equal keys). -/
def insertSorted (le : α → α → Bool) (x : α) : List α → List α
  | [] => [x]
  | y :: ys => if le x y then x :: y :: ys else y :: insertSorted le x ys

/-- Stable insertion sort; models Python's stable `sorted` with the
comparator `le` induced by the sort key. -/
def sortBool (le : α → α → Bool) : List α → List α
  | [] => []
  | x :: xs => insertSorted le x (sortBool le xs)

/-- rapidfuzz `fuzz.token_sort_ratio`: split into words, sort the
words, rejoin with single spaces, then score with the normalized InDel
similarity — word order cannot affect the score. -/
def tokenSortSim (a b : List Char) : ℚ :=
  indelSim (pyJoin " ".toList (sortBool lexLe (pySplit a)))
           (pyJoin " ".toList (sortBool lexLe (pySplit b)))

/-- `is_duplicate_title`: a title is a duplicate when its normalized
form scores ≥ `threshold` against any already-seen normalized title. -/
def is_duplicate_title (title : List Char) (seen_titles : List (List Char))
    (threshold : ℚ) : Bool :=
  let norm := normalize_for_dedup title
  seen_titles.any fun seen => decide (tokenSortSim norm seen ≥ threshold)

/-- `truncate_text`: keep at most `max_words` words, appending `"..."`
directly after the last kept word when anything was dropped. -/
def truncate_text (text : List Char) (max_words : Nat) : List Char :=
  let words := pySplit text
  if words.length ≤ max_words then text
  else pyJoin " ".toList (words.take max_words) ++ "...".toList

/-- Per-holding filter counters (`stats` dict in
`filter_news_for_stock`; `verbose` logging only, no control flow). -/
structure FilterStats where
  too_old : Nat := 0
  irrelevant : Nat := 0
  duplicate : Nat := 0
  kept : Nat := 0
deriving DecidableEq

/-- Step 4 of the funnel: `processed = article.copy()` with `body`
truncated to `MAX_WORDS_PER_ARTICLE` words and `summary` to 150 words
(each only when present and non-empty — Python truthiness). -/
def truncArticle (a : Article) : Article :=
  let a1 :=
    match a.body with
    | some b => if b ≠ [] then { a with body := some (truncate_text b MAX_WORDS_PER_ARTICLE) } else a
    | none => a
  if a1.summary ≠ [] then { a1 with summary := truncate_text a1.summary 150 } else a1

/-- The `for article in articles` loop of `filter_news_for_stock`:
recency → relevance → dedup → truncate-and-keep, breaking once
`max_articles` articles have been kept.  `seen`, `filtered` and `stats`
are the loop-carried variables. -/
def filterLoop (pSim : List Char → List Char → ℚ) (stock : Stock) (cutoff : Int)
    (max_articles : Nat) (from_sector_feed : Bool) :
    List Article → List (List Char) → List Article → FilterStats →
    List Article × FilterStats
  | [], _, filtered, stats => (filtered, stats)
  | article :: rest, seen, filtered, stats =>
    -- 1. Recency: `if pub is not None and pub < cutoff: continue`
    if (match article.published with
        | some p => decide (p < cutoff)
        | none => false) then
      filterLoop pSim stock cutoff max_articles from_sector_feed rest seen filtered
        { stats with too_old := stats.too_old + 1 }
    -- 2. Relevance (sector feeds only)
    else if !is_article_relevant pSim article stock from_sector_feed then
      filterLoop pSim stock cutoff max_articles from_sector_feed rest seen filtered
        { stats with irrelevant := stats.irrelevant + 1 }
    -- 3. Deduplication (default threshold 70)
    else if is_duplicate_title article.title seen 70 then
      filterLoop pSim stock cutoff max_articles from_sector_feed rest seen filtered
        { stats with duplicate := stats.duplicate + 1 }
    else
      let seen' := seen ++ [normalize_for_dedup article.title]
      -- 4. Truncate text, then keep
      let filtered' := filtered ++ [truncArticle article]
      let stats' := { stats with kept := stats.kept + 1 }
      -- `if len(filtered) >= max_articles: break`
      if max_articles ≤ filtered'.length then (filtered', stats')
      else filterLoop pSim stock cutoff max_articles from_sector_feed rest seen' filtered' stats'

/-- `filter_news_for_stock`: the per-holding filter funnel.  `now` is
the value of `datetime.now(timezone.utc)` in epoch seconds; the source
returns only the article list, the counters are kept here as the second
component (the source computes them for logging). -/
def filter_news_for_stock (pSim : List Char → List Char → ℚ) (articles : List Article)
    (stock : Stock) (days_back : Int) (max_articles : Nat) (from_sector_feed : Bool)
    (now : Int) : List Article × FilterStats :=
  let cutoff := now - days_back * 86400
  filterLoop pSim stock cutoff max_articles from_sector_feed articles [] [] {}

-- ═══════════════════════════════════════════════════════════════════
-- src/news_fetcher.py (the recency predicate)
-- ═══════════════════════════════════════════════════════════════════

/-- `is_recent`: articles without a publication timestamp are always
recent (fail-open); otherwise compare against `now − days_back` days. -/
def is_recent (article : Article) (days_back : Int) (now : Int) : Bool :=
  match article.published with
  | none => true
  | some p => decide (p ≥ now - days_back * 86400)

-- ═══════════════════════════════════════════════════════════════════
-- src/gemini_analyzer.py
-- ═══════════════════════════════════════════════════════════════════

/-- `MODEL_FALLBACK_ORDER`: service tiers tried in sequence when a
daily quota is exhausted. -/
def MODEL_FALLBACK_ORDER : List (List Char) :=
  ["gemini-2.0-flash".toList, "gemini-1.5-flash".toList, "gemini-1.5-flash-8b".toList]

/-- `MAX_RETRIES`: attempts per batch on 429 errors. -/
def MAX_RETRIES : Nat := 3

/-- Outcome of one `model.generate_content(prompt)` call: the response
text, or the raised exception rendered as its message string. -/
inductive GenOutcome where
  | success (text : List Char)
  | failure (err : List Char)

/-- Result of `call_gemini_with_retry`.  The source returns
`(text, success)` and mutates the process-global active model; here the
final model is returned explicitly, and `trace` additionally records
the model used by each issued `generate_content` call (in order), so
that retry-budget accounting can be stated. -/
structure RetryResult where
  text : List Char
  success : Bool
  model : List Char
  trace : List (List Char)
deriving DecidableEq

/-- The `for attempt in range(MAX_RETRIES)` loop of
`call_gemini_with_retry`.  `remaining = MAX_RETRIES - attempt` is the
structural fuel (the loop runs at most `MAX_RETRIES` iterations);
`attempt` itself is kept because the source tests `attempt == 0` and
`attempt < MAX_RETRIES - 1`.  `gen model prompt attempt` is the
external `generate_content` exchange.  Sleeps (retry delay parsing and
countdown) only burn time and are not modelled. -/
def callRetryAux (gen : List Char → List Char → Nat → GenOutcome) (prompt : List Char) :
    Nat → Nat → List Char → RetryResult
  | 0, _, model => ⟨[], false, model, []⟩   -- loop exhausted: `return "", False`
  | remaining + 1, attempt, model =>
    match gen model prompt attempt with
    | .success t => ⟨pyStrip t, true, model, [model]⟩
    | .failure e =>
      if strHas e "429".toList then
        let daily_quota_hit :=
          strHas e "PerDay".toList || strHas e "GenerateRequestsPerDay".toList
        if daily_quota_hit && attempt == 0 then
          -- `current_idx = index if member else -1; next_idx = current_idx + 1`
          let next_idx :=
            if model ∈ MODEL_FALLBACK_ORDER then MODEL_FALLBACK_ORDER.indexOf model + 1
            else 0
          if next_idx < MODEL_FALLBACK_ORDER.length then
            -- `init_gemini(new_model); continue` — retry with the next tier
            let r := callRetryAux gen prompt remaining (attempt + 1)
                       (MODEL_FALLBACK_ORDER.getD next_idx [])
            { r with trace := model :: r.trace }
          else
            -- fall through to the per-minute retry below
            if attempt < MAX_RETRIES - 1 then
              let r := callRetryAux gen prompt remaining (attempt + 1) model
              { r with trace := model :: r.trace }
            else ⟨[], false, model, [model]⟩
        else
          if attempt < MAX_RETRIES - 1 then
            let r := callRetryAux gen prompt remaining (attempt + 1) model
            { r with trace := model :: r.trace }
          else ⟨[], false, model, [model]⟩
      else ⟨[], false, model, [model]⟩   -- other errors: `return "", False`

/-- `call_gemini_with_retry` with the active-model global made an
explicit argument/result.  `tickers` is used by the source only for log
messages. -/
def call_gemini_with_retry (gen : List Char → List Char → Nat → GenOutcome)
    (prompt : List Char) (tickers : List (List Char)) (model : List Char) : RetryResult :=
  callRetryAux gen prompt MAX_RETRIES 0 model

/-- `DAILY_SYSTEM_PROMPT` (the JSON-array instruction block). -/
def DAILY_SYSTEM_PROMPT : List Char :=
  ("You are a personal stock portfolio analyst.\nAnalyze the news for each stock and return ONLY a valid JSON array.\nNo markdown, no explanation, no backticks. Just the JSON array.\n\nFor each stock return an object with these exact keys:\n\x7b\n  \"ticker\": \"string\",\n  \"sentiment\": \"positive\" | \"negative\" | \"neutral\",\n  \"summary\": \"2 sentence max. What happened and why it matters to this investor.\",\n  \"priority\": \"HIGH\" | \"MEDIUM\" | \"LOW\",\n  \"priority_reason\": \"One line.\",\n  \"action_hint\": \"hold\" | \"watch\" | \"research_exit\" | \"research_buy_more\" | \"no_news\",\n  \"thesis_status\": \"intact\" | \"weakened\" | \"broken\" | \"unclear\"\n\x7d\n\nPriority guide:\n  HIGH   = significant negative/positive news, stock moved >3%, fundamental change\n  MEDIUM = minor news, sector movement, worth watching\n  LOW    = no significant news, normal day\n\nAction hints:\n  hold             = neutral/positive, keep holding\n  watch            = something changed, monitor closely\n  research_exit    = negative fundamental news, consider cutting losses\n  research_buy_more = strong positive signal, consider adding\n  no_news          = nothing found\n").toList

/-- `_fallback_results`: deterministic placeholder Analysis Results
substituted when Gemini fails. -/
def fallback_results (tickers : List (List Char)) (reason : List Char) : List AnalysisResult :=
  tickers.map fun t =>
    { ticker := t
      sentiment := "neutral".toList
      summary := pyStrip ("Analysis unavailable. ".toList ++ reason)
      priority := "LOW".toList
      priority_reason := reason
      action_hint := "no_news".toList
      thesis_status := "unclear".toList }

/-- `analyze_daily_batch`: build the combined prompt, call Gemini
through the retry wrapper, strip markdown fences and parse the JSON
array.  `parse` is the external `json.loads`-and-list-check, returning
`none` on a `JSONDecodeError` (a successfully decoded non-list raises
out of the source function and is outside the modelled behaviours).
The active model is threaded in and out in place of the source's
global. -/
def analyze_daily_batch (gen : List Char → List Char → Nat → GenOutcome)
    (parse : List Char → Option (List AnalysisResult)) (model : List Char)
    (stock_contexts : List (List Char)) (tickers : List (List Char)) :
    List AnalysisResult × List Char :=
  let combined := "\n\n".toList ++
    pyJoin (String.toList ("─".pushn '─' 39 ++ "\n\n")) stock_contexts
  let prompt := DAILY_SYSTEM_PROMPT ++ "\n\nStocks to analyze:\n".toList ++ combined ++
    "\n\nReturn JSON array with one object per stock.".toList
  let r := call_gemini_with_retry gen prompt tickers model
  if !r.success || r.text.isEmpty then
    (fallback_results tickers "API unavailable".toList, r.model)
  else
    let raw := pyStrip (replaceAll "```".toList [] (replaceAll "```json".toList [] r.text))
    match parse raw with
    | some results => (results, r.model)
    | none => (fallback_results tickers "JSON parse error".toList, r.model)

/-- The sort key of `sort_by_investment`: invested INR (missing or zero
→ 0) with a ×1.1 boost for the Indian market, negated so that the
ascending stable sort yields descending invested amounts. -/
def sortKeyInv (item : List Char × HoldingData) : ℚ :=
  let stock := item.2.stock
  let invested := stock.invested_inr.getD 0   -- `stock.get("invested_inr") or 0`
  let market_boost : ℚ := (if stock.market = some "IN".toList then 11 / 10 else 1)
  let key := -(invested * market_boost)
  key

/-- `sort_by_investment`: Python's stable `sorted(stock_list, key=sort_key)`. -/
def sort_by_investment (stock_list : List (List Char × HoldingData)) :
    List (List Char × HoldingData) :=
  sortBool (fun a b => decide (sortKeyInv a ≤ sortKeyInv b)) stock_list

/-- The batch partition
`[sorted_items[i:i + B] for i in range(0, len(sorted_items), B)]`,
written with the list length as structural fuel (each step consumes at
least one element when `B > 0`; `range(0, n, 0)` raises in Python, so
`B = 0` is unreachable in the source). -/
def pyChunksGo (B : Nat) : Nat → List α → List (List α)
  | _, [] => []
  | 0, _ :: _ => []
  | fuel + 1, x :: xs => (x :: xs).take B :: pyChunksGo B fuel ((x :: xs).drop B)

/-- Contiguous batches of size `B`. -/
def pyChunks (B : Nat) (l : List α) : List (List α) := pyChunksGo B l.length l

/-- `priority_order.get(x.get("priority", "LOW"), 2)`. -/
def priorityRank (p : List Char) : Nat :=
  if p = "HIGH".toList then 0 else if p = "MEDIUM".toList then 1 else 2

/-- Comparator of the final presentation sort: priority tier ascending
(HIGH first), then invested INR descending. -/
def finalSortLe (a b : AnalysisResult) : Bool :=
  decide (priorityRank a.priority < priorityRank b.priority) ||
    (priorityRank a.priority == priorityRank b.priority &&
      decide (-(a.invested_inr.getD 0) ≤ -(b.invested_inr.getD 0)))

/-- The per-batch body of `run_daily_analysis`: call
`analyze_daily_batch`, then merge the holding's financial snapshot into
every result whose ticker belongs to the batch. -/
def runBatch (gen : List Char → List Char → Nat → GenOutcome)
    (parse : List Char → Option (List AnalysisResult))
    (ctxOf : Stock → List Article → List Char)
    (acc : List AnalysisResult × List Char) (batch : List (List Char × HoldingData)) :
    List AnalysisResult × List Char :=
  let tickers_in_batch := batch.map Prod.fst
  let contexts := batch.map fun td => ctxOf td.2.stock td.2.articles
  let (batch_results, model') := analyze_daily_batch gen parse acc.2 contexts tickers_in_batch
  let merged := batch_results.map fun r =>
    match batch.find? (fun td => td.1 == r.ticker) with
    | some td =>
      let s := td.2.stock
      { r with
        name := some (s.name.getD r.ticker)
        market := some (s.market.getD [])
        sector := some (s.sector.getD [])
        gain_pct := s.gain_pct
        profit_inr := s.profit_inr
        invested_inr := s.invested_inr }
    | none => r
  (acc.1 ++ merged, model')

/-- `run_daily_analysis`: split the filtered-news map into holdings
with and without kept articles, send only the former to Gemini (sorted
by invested amount, in `GEMINI_BATCH_SIZE` batches), merge financial
data into the results and sort them HIGH → MEDIUM → LOW, by invested
amount within each tier.  `ctxOf` is `build_llm_context_for_stock`
(prompt text only — it feeds nothing but the external call);
`init_gemini()` sets the active model to `GEMINI_MODEL`. -/
def run_daily_analysis (gen : List Char → List Char → Nat → GenOutcome)
    (parse : List Char → Option (List AnalysisResult))
    (ctxOf : Stock → List Article → List Char)
    (filtered_news : List (List Char × HoldingData)) : List AnalysisResult :=
  let items_with_news := filtered_news.filter fun td => !td.2.articles.isEmpty
  -- `items_no_news` is also computed by the source, but only its size is
  -- printed; it contributes nothing further to the returned value.
  let sorted_items := sort_by_investment items_with_news
  let batches := pyChunks GEMINI_BATCH_SIZE sorted_items
  let all_results := (batches.foldl (runBatch gen parse ctxOf) ([], GEMINI_MODEL)).1
  sortBool finalSortLe all_results

-- ═══════════════════════════════════════════════════════════════════
-- Helper lemmas: stable sort
-- ═══════════════════════════════════════════════════════════════════

theorem insertSorted_perm (le : α → α → Bool) (x : α) (l : List α) :
    List.Perm (insertSorted le x l) (x :: l) := by
  induction l with
  | nil => simp [insertSorted]
  | cons y ys ih =>
    by_cases h : le x y
    · simp [insertSorted, h]
    · simp only [insertSorted, h, if_false, Bool.false_eq_true]
      exact List.Perm.trans (List.Perm.cons y ih) (List.Perm.swap x y ys)

theorem sortBool_perm (le : α → α → Bool) (l : List α) :
    List.Perm (sortBool le l) l := by
  induction l with
  | nil => simp [sortBool]
  | cons x xs ih =>
    exact List.Perm.trans (insertSorted_perm le x _) (List.Perm.cons x ih)

theorem mem_insertSorted (le : α → α → Bool) (x : α) (l : List α) (a : α) :
    a ∈ insertSorted le x l ↔ a = x ∨ a ∈ l :=
  ⟨fun h => by simpa using (insertSorted_perm le x l).mem_iff.mp h,
   fun h => (insertSorted_perm le x l).mem_iff.mpr (by simpa using h)⟩

theorem pairwise_insertSorted (le : α → α → Bool)
    (htot : ∀ a b, le a b = true ∨ le b a = true)
    (htrans : ∀ a b c, le a b = true → le b c = true → le a c = true)
    (x : α) (l : List α) (hl : l.Pairwise (fun a b => le a b = true)) :
    (insertSorted le x l).Pairwise (fun a b => le a b = true) := by
  induction l with
  | nil => simp [insertSorted]
  | cons y ys ih =>
    rcases List.pairwise_cons.mp hl with ⟨hy, hys⟩
    by_cases h : le x y
    · simp only [insertSorted, h, if_true]
      refine List.pairwise_cons.mpr ⟨?_, hl⟩
      intro z hz
      rcases List.mem_cons.mp hz with rfl | hz'
      · exact h
      · exact htrans x y z h (hy z hz')
    · simp only [insertSorted, h, if_false, Bool.false_eq_true]
      refine List.pairwise_cons.mpr ⟨?_, ih hys⟩
      intro z hz
      rcases (mem_insertSorted le x ys z).mp hz with rfl | hz'
      · rcases htot z y with hzy | hyz
        · exact absurd hzy h
        · exact hyz
      · exact hy z hz'

theorem pairwise_sortBool (le : α → α → Bool)
    (htot : ∀ a b, le a b = true ∨ le b a = true)
    (htrans : ∀ a b c, le a b = true → le b c = true → le a c = true)
    (l : List α) : (sortBool le l).Pairwise (fun a b => le a b = true) := by
  induction l with
  | nil => simp [sortBool]
  | cons x xs ih => exact pairwise_insertSorted le htot htrans x _ ih

-- ═══════════════════════════════════════════════════════════════════
-- Helper lemmas: similarity scores
-- ═══════════════════════════════════════════════════════════════════

theorem lcsLenGo_comm : ∀ (fuel : Nat) (a b : List Char),
    lcsLenGo fuel a b = lcsLenGo fuel b a := by
  intro fuel
  induction fuel with
  | zero =>
    intro a b
    cases a <;> cases b <;> simp [lcsLenGo]
  | succ n ih =>
    intro a b
    cases a with
    | nil => cases b <;> simp [lcsLenGo]
    | cons x xs =>
      cases b with
      | nil => simp [lcsLenGo]
      | cons y ys =>
        simp only [lcsLenGo]
        by_cases hxy : x = y
        · subst hxy
          simp [ih]
        · have hyx : ¬y = x := fun h => hxy h.symm
          simp only [hxy, if_false, hyx]
          rw [ih (x :: xs) ys, ih xs (y :: ys), Nat.max_comm]

theorem lcsLen_comm (a b : List Char) : lcsLen a b = lcsLen b a := by
  unfold lcsLen
  rw [Nat.add_comm a.length b.length, lcsLenGo_comm]

theorem indelSim_comm (a b : List Char) : indelSim a b = indelSim b a := by
  simp only [indelSim, lcsLen_comm a b, Nat.add_comm a.length b.length,
    add_comm (a.length : ℚ) (b.length : ℚ)]

theorem tokenSortSim_comm (a b : List Char) : tokenSortSim a b = tokenSortSim b a := by
  unfold tokenSortSim
  rw [indelSim_comm]

-- ═══════════════════════════════════════════════════════════════════
-- Helper lemmas: word splitting and truncation
-- ═══════════════════════════════════════════════════════════════════

theorem pySplitAux_words : ∀ (cs acc : List Char),
    (∀ c ∈ acc, pyIsSpace c = false) →
    ∀ w ∈ pySplitAux cs acc, w ≠ [] ∧ ∀ c ∈ w, pyIsSpace c = false := by
  intro cs
  induction cs with
  | nil =>
    intro acc hacc w hw
    by_cases h : acc = []
    · subst h; simp [pySplitAux] at hw
    · simp [pySplitAux, h] at hw
      subst hw
      refine ⟨by simpa using h, ?_⟩
      intro c hc
      exact hacc c (List.mem_reverse.mp hc)
  | cons c cs ih =>
    intro acc hacc w hw
    by_cases hsp : pyIsSpace c
    · by_cases h : acc = []
      · subst h
        simp only [pySplitAux, hsp, if_true, List.isEmpty_nil] at hw
        exact ih [] (by simp) w hw
      · simp only [pySplitAux, hsp, if_true] at hw
        rw [if_neg (by simpa using h)] at hw
        rcases List.mem_cons.mp hw with rfl | hw'
        · refine ⟨by simpa using h, ?_⟩
          intro x hx
          exact hacc x (List.mem_reverse.mp hx)
        · exact ih [] (by simp) w hw'
    · simp only [pySplitAux, hsp, if_false, Bool.false_eq_true] at hw
      refine ih (c :: acc) ?_ w hw
      intro x hx
      rcases List.mem_cons.mp hx with rfl | hx'
      · simpa using hsp
      · exact hacc x hx'

theorem pySplit_words (s : List Char) :
    ∀ w ∈ pySplit s, w ≠ [] ∧ ∀ c ∈ w, pyIsSpace c = false :=
  pySplitAux_words s [] (by simp)

theorem pySplitAux_append_word : ∀ (w cs acc : List Char),
    (∀ c ∈ w, pyIsSpace c = false) →
    pySplitAux (w ++ cs) acc = pySplitAux cs (w.reverse ++ acc) := by
  intro w
  induction w with
  | nil => intro cs acc _; simp
  | cons c w' ih =>
    intro cs acc hw
    have hc : pyIsSpace c = false := hw c (List.mem_cons_self c w')
    have h1 : pySplitAux ((c :: w') ++ cs) acc = pySplitAux (w' ++ cs) (c :: acc) := by
      simp [pySplitAux, hc]
    rw [h1, ih cs (c :: acc) (fun x hx => hw x (List.mem_cons_of_mem c hx))]
    simp

theorem pySplitAux_emit (c : Char) (cs acc : List Char) (hsp : pyIsSpace c = true)
    (hacc : acc ≠ []) :
    pySplitAux (c :: cs) acc = acc.reverse :: pySplitAux cs [] := by
  simp only [pySplitAux, hsp, if_true]
  rw [if_neg (by simpa using hacc)]

theorem pySplit_join_count : ∀ (ws : List (List Char)) (sfx : List Char),
    ws ≠ [] →
    (∀ w ∈ ws, w ≠ [] ∧ ∀ c ∈ w, pyIsSpace c = false) →
    sfx ≠ [] → (∀ c ∈ sfx, pyIsSpace c = false) →
    (pySplit (pyJoin [' '] ws ++ sfx)).length = ws.length := by
  intro ws
  induction ws with
  | nil => intro sfx h; exact absurd rfl h
  | cons w ws ih =>
    intro sfx _ hws hsfx hsfxc
    rcases hws w (List.mem_cons_self w ws) with ⟨hw, hwc⟩
    cases ws with
    | nil =>
      -- single word: it merges with the suffix into one word
      show (pySplitAux (w ++ sfx) []).length = 1
      rw [pySplitAux_append_word w sfx [] hwc, List.append_nil]
      have : pySplitAux sfx w.reverse = pySplitAux ([] : List Char) (sfx.reverse ++ w.reverse) := by
        have := pySplitAux_append_word sfx [] w.reverse hsfxc
        simpa using this
      rw [this]
      have hne : ¬(sfx.reverse ++ w.reverse).isEmpty = true := by
        simp [List.isEmpty_iff, hsfx]
      simp [pySplitAux, hne]
    | cons w2 ws2 =>
      show (pySplitAux ((w ++ [' '] ++ pyJoin [' '] (w2 :: ws2)) ++ sfx) []).length
          = (w :: w2 :: ws2).length
      have harr : (w ++ [' '] ++ pyJoin [' '] (w2 :: ws2)) ++ sfx
          = w ++ (' ' :: (pyJoin [' '] (w2 :: ws2) ++ sfx)) := by simp
      rw [harr, pySplitAux_append_word w _ [] hwc]
      rw [List.append_nil]
      rw [pySplitAux_emit ' ' _ w.reverse (by simp [pyIsSpace]) (by simpa using hw)]
      have hih : (pySplitAux (pyJoin [' '] (w2 :: ws2) ++ sfx) []).length = (w2 :: ws2).length :=
        ih sfx (by simp) (fun x hx => hws x (List.mem_cons_of_mem w hx)) hsfx hsfxc
      simp only [List.length_cons] at hih ⊢
      omega

theorem truncate_text_wordCount (t : List Char) (n : Nat) (hn : 1 ≤ n) :
    (pySplit (truncate_text t n)).length ≤ n := by
  unfold truncate_text
  by_cases h : (pySplit t).length ≤ n
  · simpa [h]
  · simp only [h, if_false]
    have hlen : ((pySplit t).take n).length = n := by
      rw [List.length_take]
      omega
    have hcount : (pySplit (pyJoin [' '] ((pySplit t).take n) ++ "...".toList)).length = n := by
      rw [pySplit_join_count]
      · exact hlen
      · intro hempty
        rw [hempty] at hlen
        simp at hlen
        omega
      · intro w hw
        exact pySplit_words t w (List.mem_of_mem_take hw)
      · simp
      · intro c hc
        have : c = '.' := by
          simpa using hc
        subst this
        rfl
    have hsep : " ".toList = [' '] := rfl
    rw [hsep, hcount]


-- ═══════════════════════════════════════════════════════════════════
-- Helper lemmas: the per-holding filter loop
-- ═══════════════════════════════════════════════════════════════════

theorem truncArticle_summary (a : Article) :
    (truncArticle a).summary =
      (if a.summary ≠ [] then truncate_text a.summary 150 else a.summary) := by
  unfold truncArticle
  rcases hb : a.body with _ | b
  · by_cases hs : a.summary = [] <;> simp [hs]
  · by_cases hbe : b = [] <;> by_cases hs : a.summary = [] <;>
      simp [hbe, hs]

theorem truncArticle_body (a : Article) :
    (truncArticle a).body =
      (match a.body with
       | some b => if b ≠ [] then some (truncate_text b MAX_WORDS_PER_ARTICLE) else some b
       | none => none) := by
  unfold truncArticle
  rcases hb : a.body with _ | b
  · by_cases hs : a.summary = [] <;> simp [hs, hb]
  · by_cases hbe : b = [] <;> by_cases hs : a.summary = [] <;>
      simp [hbe, hs, hb]

theorem truncArticle_caps (a : Article) :
    (pySplit (truncArticle a).summary).length ≤ 150 ∧
      ∀ b, (truncArticle a).body = some b →
        (pySplit b).length ≤ MAX_WORDS_PER_ARTICLE := by
  have h150 : (1 : Nat) ≤ 150 := by norm_num
  have h300 : (1 : Nat) ≤ MAX_WORDS_PER_ARTICLE := by norm_num [MAX_WORDS_PER_ARTICLE]
  constructor
  · rw [truncArticle_summary]
    by_cases hs : a.summary = []
    · simp [hs, pySplit, pySplitAux]
    · simp only [ne_eq, hs, not_false_eq_true, if_true]
      exact truncate_text_wordCount a.summary 150 h150
  · intro b hbody
    rw [truncArticle_body] at hbody
    rcases hb : a.body with _ | b0
    · rw [hb] at hbody
      simp at hbody
    · rw [hb] at hbody
      by_cases hbe : b0 = []
      · simp only [hbe, ne_eq, not_true_eq_false, if_false, Option.some.injEq] at hbody
        subst hbody
        simp [hbe, pySplit, pySplitAux]
      · simp only [ne_eq, hbe, not_false_eq_true, if_true, Option.some.injEq] at hbody
        subst hbody
        exact truncate_text_wordCount b0 MAX_WORDS_PER_ARTICLE h300

theorem filterLoop_caps (pSim : List Char → List Char → ℚ) (stock : Stock)
    (cutoff : Int) (max_articles : Nat) (fsf : Bool) :
    ∀ (articles : List Article) (seen : List (List Char)) (filtered : List Article)
      (stats : FilterStats),
    filtered.length < max_articles →
    (∀ a ∈ filtered, (pySplit a.summary).length ≤ 150 ∧
      ∀ b, a.body = some b → (pySplit b).length ≤ MAX_WORDS_PER_ARTICLE) →
    (filterLoop pSim stock cutoff max_articles fsf articles seen filtered stats).1.length
        ≤ max_articles ∧
      ∀ a ∈ (filterLoop pSim stock cutoff max_articles fsf articles seen filtered stats).1,
        (pySplit a.summary).length ≤ 150 ∧
          ∀ b, a.body = some b → (pySplit b).length ≤ MAX_WORDS_PER_ARTICLE := by
  intro articles
  induction articles with
  | nil =>
    intro seen filtered stats hlen hmem
    simp only [filterLoop]
    exact ⟨Nat.le_of_lt hlen, hmem⟩
  | cons a rest ih =>
    intro seen filtered stats hlen hmem
    simp only [filterLoop]
    split
    · exact ih _ _ _ hlen hmem
    · split
      · exact ih _ _ _ hlen hmem
      · split
        · exact ih _ _ _ hlen hmem
        · split
          · -- cap reached: break with the extended list
            constructor
            · simp only [List.length_append, List.length_cons, List.length_nil]
              omega
            · intro x hx
              rcases List.mem_append.mp hx with hx' | hx'
              · exact hmem x hx'
              · have hx'' : x = truncArticle a := by simpa using hx'
                subst hx''
                exact truncArticle_caps a
          · -- continue with the extended list
            rename_i hnb
            apply ih
            · simp only [List.length_append, List.length_cons, List.length_nil] at hnb ⊢
              omega
            · intro x hx
              rcases List.mem_append.mp hx with hx' | hx'
              · exact hmem x hx'
              · have hx'' : x = truncArticle a := by simpa using hx'
                subst hx''
                exact truncArticle_caps a

theorem filterLoop_too_old (pSim : List Char → List Char → ℚ) (stock : Stock)
    (cutoff : Int) (max_articles : Nat) (fsf : Bool) :
    ∀ (articles : List Article) (seen : List (List Char)) (filtered : List Article)
      (stats : FilterStats),
    (∀ a ∈ articles, a.published = none) →
    (filterLoop pSim stock cutoff max_articles fsf articles seen filtered stats).2.too_old
      = stats.too_old := by
  intro articles
  induction articles with
  | nil =>
    intro seen filtered stats _
    simp [filterLoop]
  | cons a rest ih =>
    intro seen filtered stats hnone
    have ha : a.published = none := hnone a (List.mem_cons_self a rest)
    have hrest : ∀ x ∈ rest, x.published = none :=
      fun x hx => hnone x (List.mem_cons_of_mem a hx)
    simp only [filterLoop, ha]
    rw [if_neg (by simp)]
    split
    · exact ih _ _ _ hrest
    · split
      · exact ih _ _ _ hrest
      · split
        · simp
        · exact ih _ _ _ hrest

theorem filterLoop_sublist (pSim : List Char → List Char → ℚ) (stock : Stock)
    (cutoff : Int) (max_articles : Nat) (fsf : Bool) :
    ∀ (articles : List Article) (seen : List (List Char)) (filtered : List Article)
      (stats : FilterStats),
    ∃ sub : List Article, List.Sublist sub articles ∧
      (filterLoop pSim stock cutoff max_articles fsf articles seen filtered stats).1
        = filtered ++ sub.map truncArticle := by
  intro articles
  induction articles with
  | nil =>
    intro seen filtered stats
    exact ⟨[], List.nil_sublist [], by simp [filterLoop]⟩
  | cons a rest ih =>
    intro seen filtered stats
    simp only [filterLoop]
    split
    · obtain ⟨sub, hs, he⟩ := ih _ _ _
      exact ⟨sub, hs.cons a, he⟩
    · split
      · obtain ⟨sub, hs, he⟩ := ih _ _ _
        exact ⟨sub, hs.cons a, he⟩
      · split
        · obtain ⟨sub, hs, he⟩ := ih _ _ _
          exact ⟨sub, hs.cons a, he⟩
        · split
          · exact ⟨[a], (List.nil_sublist rest).cons₂ a, by simp⟩
          · obtain ⟨sub, hs, he⟩ := ih (seen ++ [normalize_for_dedup a.title])
              (filtered ++ [truncArticle a]) { stats with kept := stats.kept + 1 }
            refine ⟨a :: sub, hs.cons₂ a, ?_⟩
            rw [he]
            simp

-- ═══════════════════════════════════════════════════════════════════
-- Helper lemmas: batch partition and the retry loop
-- ═══════════════════════════════════════════════════════════════════

theorem pyChunksGo_flatten {α : Type} (B : Nat) (hB : 0 < B) :
    ∀ (fuel : Nat) (l : List α), l.length ≤ fuel →
      (pyChunksGo B fuel l).flatten = l := by
  intro fuel
  induction fuel with
  | zero =>
    intro l hl
    cases l with
    | nil => simp [pyChunksGo]
    | cons x xs => simp at hl
  | succ n ih =>
    intro l hl
    cases l with
    | nil => simp [pyChunksGo]
    | cons x xs =>
      simp only [pyChunksGo, List.flatten_cons]
      rw [ih ((x :: xs).drop B) (by simp at hl ⊢; omega)]
      exact List.take_append_drop B (x :: xs)

theorem pyChunksGo_mem {α : Type} (B : Nat) (hB : 0 < B) :
    ∀ (fuel : Nat) (l : List α) (b : List α), l.length ≤ fuel →
      b ∈ pyChunksGo B fuel l → b ≠ [] ∧ b.length ≤ B := by
  intro fuel
  induction fuel with
  | zero =>
    intro l b hl hb
    cases l with
    | nil => simp [pyChunksGo] at hb
    | cons x xs => simp at hl
  | succ n ih =>
    intro l b hl hb
    cases l with
    | nil => simp [pyChunksGo] at hb
    | cons x xs =>
      simp only [pyChunksGo, List.mem_cons] at hb
      rcases hb with rfl | hb'
      · constructor
        · cases B with
          | zero => omega
          | succ B' => simp
        · simp only [List.length_take]
          omega
      · exact ih ((x :: xs).drop B) b (by simp at hl ⊢; omega) hb'

theorem callRetryAux_tail_fixed (gen : List Char → List Char → Nat → GenOutcome)
    (prompt : List Char) :
    ∀ (remaining attempt : Nat) (model : List Char), 1 ≤ attempt →
      (callRetryAux gen prompt remaining attempt model).trace.length ≤ remaining ∧
        ∀ m ∈ (callRetryAux gen prompt remaining attempt model).trace, m = model := by
  intro remaining
  induction remaining with
  | zero =>
    intro attempt model _
    simp [callRetryAux]
  | succ n ih =>
    intro attempt model hatt
    have hatt0 : (attempt == 0) = false := by
      simp only [beq_eq_false_iff_ne, ne_eq]
      omega
    simp only [callRetryAux]
    cases hg : gen model prompt attempt with
    | success t => simp
    | failure e =>
      simp only [hatt0, Bool.and_false, Bool.false_eq_true, if_false]
      split
      · split
        · rcases ih (attempt + 1) model (by omega) with ⟨h1, h2⟩
          constructor
          · simpa using h1
          · intro m hm
            rcases List.mem_cons.mp hm with rfl | hm'
            · rfl
            · exact h2 m hm'
        · simp
      · simp

theorem callRetryAux_allFail_fail (gen : List Char → List Char → Nat → GenOutcome)
    (hgen : ∀ prompt attempt, ∃ e,
      gen "gemini-1.5-flash-8b".toList prompt attempt = GenOutcome.failure e ∧
        strHas e "429".toList = true) :
    ∀ (prompt : List Char) (remaining attempt : Nat),
      (callRetryAux gen prompt remaining attempt "gemini-1.5-flash-8b".toList).success
        = false := by
  intro prompt remaining
  induction remaining with
  | zero => intro attempt; simp [callRetryAux]
  | succ n ih =>
    intro attempt
    obtain ⟨e, hge, h429⟩ := hgen prompt attempt
    simp only [callRetryAux, hge, h429, if_true]
    split
    · -- daily-quota branch: the last tier has no successor
      rw [if_neg (by decide)]
      split
      · simpa using ih (attempt + 1)
      · rfl
    · split
      · simpa using ih (attempt + 1)
      · rfl

-- ═══════════════════════════════════════════════════════════════════
-- Claim theorems
-- ═══════════════════════════════════════════════════════════════════

/-- C1: the claim says every holding that entered the pipeline gets
exactly one Analysis Result, with holdings that have no kept articles
receiving a placeholder.  The code violates this: `run_daily_analysis`
computes `items_no_news` but never emits results for it, so a
filtered-news map holding one no-news holding yields an empty output
instead of one placeholder result — contradicting the function's own
docstring ("Stocks with no news still get a result").  This theorem
evaluates the code at that failing input. -/
theorem c1_no_news_holding_dropped :
    run_daily_analysis (fun _ _ _ => GenOutcome.failure "429".toList) (fun _ => none)
      (fun _ _ => []) [("AAPL".toList, ⟨{}, []⟩)] = [] := by
  rfl

/-- C2 counterexample: the claim says a first-attempt daily-quota
failure switches tiers "without consuming one of the fixed maximum
retry attempts", leaving the full retry budget for the new tier.  In
the code the switch is a plain `continue` of the `for attempt in
range(MAX_RETRIES)` loop, so with a generator whose first tier reports
an exhausted daily quota and whose second tier always rate-limits, the
second tier is called only twice — not `MAX_RETRIES` times. -/
theorem c2_counterexample :
    (call_gemini_with_retry
        (fun model _ _ =>
          if model = "gemini-2.0-flash".toList then
            GenOutcome.failure "429 GenerateRequestsPerDay".toList
          else GenOutcome.failure "429 rate".toList)
        [] [] "gemini-2.0-flash".toList).trace
      = ["gemini-2.0-flash".toList, "gemini-1.5-flash".toList,
         "gemini-1.5-flash".toList] ∧
    ¬ ((call_gemini_with_retry
        (fun model _ _ =>
          if model = "gemini-2.0-flash".toList then
            GenOutcome.failure "429 GenerateRequestsPerDay".toList
          else GenOutcome.failure "429 rate".toList)
        [] [] "gemini-2.0-flash".toList).trace.count "gemini-1.5-flash".toList
      = MAX_RETRIES) := by
  constructor
  · rfl
  · decide

/-- C2 (amended): when the first retry attempt for a batch observes a
daily-quota rate-limit failure and a next tier exists, the controller
switches to that tier and retries, but the switch consumes one of the
`MAX_RETRIES` attempts: every further `generate_content` call uses the
switched-to tier, and at most `MAX_RETRIES - 1` such calls are made. -/
theorem c2_tier_switch_consumes_attempt
    (gen : List Char → List Char → Nat → GenOutcome)
    (prompt : List Char) (tickers : List (List Char)) (model e : List Char)
    (hfail : gen model prompt 0 = GenOutcome.failure e)
    (h429 : strHas e "429".toList = true)
    (hdaily : (strHas e "PerDay".toList || strHas e "GenerateRequestsPerDay".toList) = true)
    (hmem : model ∈ MODEL_FALLBACK_ORDER)
    (hnext : MODEL_FALLBACK_ORDER.indexOf model + 1 < MODEL_FALLBACK_ORDER.length) :
    ∃ rest, (call_gemini_with_retry gen prompt tickers model).trace = model :: rest ∧
      rest.length ≤ MAX_RETRIES - 1 ∧
      ∀ m ∈ rest,
        m = MODEL_FALLBACK_ORDER.getD (MODEL_FALLBACK_ORDER.indexOf model + 1) [] := by
  unfold call_gemini_with_retry
  have h3 : MAX_RETRIES = 2 + 1 := rfl
  rw [h3, callRetryAux.eq_2]
  simp only [hfail]
  simp only [h429, hdaily, hmem, hnext, if_true, eq_self_iff_true, beq_self_eq_true,
    Bool.and_self, Bool.and_true, Bool.true_and, ite_true, Nat.zero_add]
  refine ⟨_, rfl, ?_, ?_⟩
  · have h := (callRetryAux_tail_fixed gen prompt 2 1
      (MODEL_FALLBACK_ORDER.getD (MODEL_FALLBACK_ORDER.indexOf model + 1) [])
      (by omega)).1
    exact le_trans h (by decide)
  · exact (callRetryAux_tail_fixed gen prompt 2 1
      (MODEL_FALLBACK_ORDER.getD (MODEL_FALLBACK_ORDER.indexOf model + 1) [])
      (by omega)).2

/-- C2 witness: the amended theorem applied to a concrete generator
whose first tier exhausts its daily quota on the first attempt. -/
theorem c2_tier_switch_consumes_attempt_witness :
    ∃ rest, (call_gemini_with_retry
        (fun model _ _ =>
          if model = "gemini-2.0-flash".toList then
            GenOutcome.failure "429 GenerateRequestsPerDay".toList
          else GenOutcome.failure "429 rate".toList)
        [] [] "gemini-2.0-flash".toList).trace = "gemini-2.0-flash".toList :: rest ∧
      rest.length ≤ MAX_RETRIES - 1 ∧
      ∀ m ∈ rest,
        m = MODEL_FALLBACK_ORDER.getD
              (MODEL_FALLBACK_ORDER.indexOf "gemini-2.0-flash".toList + 1) [] :=
  c2_tier_switch_consumes_attempt _ [] [] "gemini-2.0-flash".toList
    "429 GenerateRequestsPerDay".toList rfl (by decide) (by decide) (by decide) (by decide)

/-- C3 counterexample: the claim bounds the output by `max_count` for
every cap, but the source checks `len(filtered) >= max_articles` only
after appending, so with `max_articles = 0` a single acceptable article
is still returned. -/
theorem c3_counterexample :
    ¬ ((filter_news_for_stock (fun _ _ => 0) [{ title := "x".toList }] {} 1 0 false 0).1.length
        ≤ 0) := by
  decide

/-- C3 (amended): for every article list, holding, window, positive cap
`max_articles ≥ 1` and feed kind, the Per-Holding Filter Pipeline
returns at most `max_articles` articles, and every returned article has
summary word count ≤ 150 and body word count ≤ `MAX_WORDS_PER_ARTICLE`
(300).  (With `max_articles = 0` the pipeline can return one article,
see the counterexample.) -/
theorem c3_filter_caps (pSim : List Char → List Char → ℚ) (articles : List Article)
    (stock : Stock) (days_back : Int) (max_articles : Nat) (fsf : Bool) (now : Int)
    (hmax : 1 ≤ max_articles) :
    (filter_news_for_stock pSim articles stock days_back max_articles fsf now).1.length
        ≤ max_articles ∧
      ∀ a ∈ (filter_news_for_stock pSim articles stock days_back max_articles fsf now).1,
        (pySplit a.summary).length ≤ 150 ∧
          ∀ b, a.body = some b → (pySplit b).length ≤ MAX_WORDS_PER_ARTICLE := by
  unfold filter_news_for_stock
  exact filterLoop_caps pSim stock (now - days_back * 86400) max_articles fsf
    articles [] [] {} (by simpa using hmax) (by simp)

/-- C3 witness: the amended bound evaluated at a concrete article list
with the default cap of 5. -/
theorem c3_filter_caps_witness :
    (filter_news_for_stock (fun _ _ => 0) [{ title := "x".toList }] {} 1 5 false 0).1.length
        ≤ 5 ∧
      ∀ a ∈ (filter_news_for_stock (fun _ _ => 0) [{ title := "x".toList }] {} 1 5 false 0).1,
        (pySplit a.summary).length ≤ 150 ∧
          ∀ b, a.body = some b → (pySplit b).length ≤ MAX_WORDS_PER_ARTICLE :=
  c3_filter_caps (fun _ _ => 0) [{ title := "x".toList }] {} 1 5 false 0 (by norm_num)

/-- C4: if every retry attempt for a batch fails with a rate-limit
error and the active tier is the last of the fallback list (so no
further tier remains), `analyze_daily_batch` substitutes exactly the
deterministic placeholders: one result per ticker of the batch, each
with sentiment `neutral`, priority `LOW`, action hint `no_news` and
thesis status `unclear`. -/
theorem c4_exhausted_retries_placeholders
    (gen : List Char → List Char → Nat → GenOutcome)
    (parse : List Char → Option (List AnalysisResult))
    (contexts : List (List Char)) (tickers : List (List Char))
    (hgen : ∀ prompt attempt, ∃ e,
      gen "gemini-1.5-flash-8b".toList prompt attempt = GenOutcome.failure e ∧
        strHas e "429".toList = true) :
    (analyze_daily_batch gen parse "gemini-1.5-flash-8b".toList contexts tickers).1
        = fallback_results tickers "API unavailable".toList ∧
      (analyze_daily_batch gen parse "gemini-1.5-flash-8b".toList contexts tickers).1.map
          (fun r => r.ticker) = tickers ∧
      ∀ r ∈ (analyze_daily_batch gen parse "gemini-1.5-flash-8b".toList contexts tickers).1,
        r.sentiment = "neutral".toList ∧ r.priority = "LOW".toList ∧
          r.action_hint = "no_news".toList ∧ r.thesis_status = "unclear".toList := by
  have hfail := callRetryAux_allFail_fail gen hgen
  have hmain :
      (analyze_daily_batch gen parse "gemini-1.5-flash-8b".toList contexts tickers).1
        = fallback_results tickers "API unavailable".toList := by
    unfold analyze_daily_batch call_gemini_with_retry
    have hb : ∀ (b c : Bool), b = false → (!b || c) = true := by decide
    rw [if_pos (hb _ _ (hfail _ MAX_RETRIES 0))]
  refine ⟨hmain, ?_, ?_⟩
  · rw [hmain]
    simp [fallback_results, List.map_map, Function.comp_def]
  · rw [hmain]
    intro r hr
    simp only [fallback_results, List.mem_map] at hr
    obtain ⟨t, _, rfl⟩ := hr
    exact ⟨rfl, rfl, rfl, rfl⟩

/-- C4 witness: the placeholder substitution evaluated for a concrete
always-rate-limited generator on a two-ticker batch. -/
theorem c4_exhausted_retries_placeholders_witness :
    (analyze_daily_batch (fun _ _ _ => GenOutcome.failure "429".toList) (fun _ => none)
        "gemini-1.5-flash-8b".toList [] ["AAPL".toList, "NVDA".toList]).1
        = fallback_results ["AAPL".toList, "NVDA".toList] "API unavailable".toList ∧
      (analyze_daily_batch (fun _ _ _ => GenOutcome.failure "429".toList) (fun _ => none)
        "gemini-1.5-flash-8b".toList [] ["AAPL".toList, "NVDA".toList]).1.map
          (fun r => r.ticker) = ["AAPL".toList, "NVDA".toList] ∧
      ∀ r ∈ (analyze_daily_batch (fun _ _ _ => GenOutcome.failure "429".toList) (fun _ => none)
        "gemini-1.5-flash-8b".toList [] ["AAPL".toList, "NVDA".toList]).1,
        r.sentiment = "neutral".toList ∧ r.priority = "LOW".toList ∧
          r.action_hint = "no_news".toList ∧ r.thesis_status = "unclear".toList :=
  c4_exhausted_retries_placeholders (fun _ _ _ => GenOutcome.failure "429".toList)
    (fun _ => none) [] ["AAPL".toList, "NVDA".toList]
    (fun _ _ => ⟨"429".toList, rfl, by decide⟩)

/-- C5: for every holdings-with-news list and positive `batch_size`,
the Batch Scheduler's partition of the sorted list consists of
contiguous batches of size ≤ `batch_size`, whose concatenation is
exactly the sorted list (so every holding occurs exactly once — the
sorted list being a permutation of the input), with no empty batch. -/
theorem c5_batch_partition (l : List (List Char × HoldingData)) (B : Nat) (hB : 0 < B) :
    (pyChunks B (sort_by_investment l)).flatten = sort_by_investment l ∧
      List.Perm (sort_by_investment l) l ∧
      ∀ b ∈ pyChunks B (sort_by_investment l), b ≠ [] ∧ b.length ≤ B := by
  refine ⟨pyChunksGo_flatten B hB _ _ le_rfl, sortBool_perm _ l,
    fun b hb => pyChunksGo_mem B hB _ _ b le_rfl hb⟩

/-- C5 witness: the partition property evaluated at one concrete
holding with the default batch size 5. -/
theorem c5_batch_partition_witness :
    (pyChunks 5 (sort_by_investment [("AAPL".toList, ⟨{}, [{}]⟩)])).flatten
        = sort_by_investment [("AAPL".toList, ⟨{}, [{}]⟩)] ∧
      List.Perm (sort_by_investment [("AAPL".toList, ⟨{}, [{}]⟩)])
        [("AAPL".toList, ⟨{}, [{}]⟩)] ∧
      ∀ b ∈ pyChunks 5 (sort_by_investment [("AAPL".toList, ⟨{}, [{}]⟩)]),
        b ≠ [] ∧ b.length ≤ 5 :=
  c5_batch_partition [("AAPL".toList, ⟨{}, [{}]⟩)] 5 (by norm_num)

/-- C6: the Batch Scheduler orders holdings by invested amount
descending under the ×1.1 boost applied to the `IN` market for
comparison: the output is a permutation of the input sorted by the
boosted key, and at equal positive invested amounts an `IN` holding
sorts before a non-`IN` holding even when it came later in the
input. -/
theorem c6_sort_by_investment_boost :
    (∀ l, List.Perm (sort_by_investment l) l ∧
       (sort_by_investment l).Pairwise (fun a b => sortKeyInv a ≤ sortKeyInv b)) ∧
    ∀ (ta tb : List Char) (da db : HoldingData) (v : ℚ),
      da.stock.market = some "IN".toList → ¬ db.stock.market = some "IN".toList →
      da.stock.invested_inr = some v → db.stock.invested_inr = some v → 0 < v →
      sort_by_investment [(tb, db), (ta, da)] = [(ta, da), (tb, db)] := by
  constructor
  · intro l
    refine ⟨sortBool_perm _ l, ?_⟩
    have hp := pairwise_sortBool (fun a b => decide (sortKeyInv a ≤ sortKeyInv b))
      (fun a b => by
        rcases le_total (sortKeyInv a) (sortKeyInv b) with h | h
        · exact Or.inl (by simpa using h)
        · exact Or.inr (by simpa using h))
      (fun a b c hab hbc => by
        simp only [decide_eq_true_eq] at hab hbc ⊢
        exact le_trans hab hbc) l
    exact hp.imp (fun h => by simpa using h)
  · intro ta tb da db v hma hmb hia hib hv
    have hka : sortKeyInv (ta, da) = -(v * (11 / 10)) := by
      simp [sortKeyInv, hma, hia]
    have hkb : sortKeyInv (tb, db) = -(v * 1) := by
      simp only [sortKeyInv, hib, Option.getD_some]
      rw [if_neg hmb]
    have hlt : ¬ (sortKeyInv (tb, db) ≤ sortKeyInv (ta, da)) := by
      rw [hka, hkb]
      intro hcon
      nlinarith
    simp only [sort_by_investment, sortBool, insertSorted]
    rw [if_neg (by simpa using hlt)]

/-- C6 witness: at equal invested amounts (₹100), the `IN` holding
listed second sorts ahead of the `US` holding listed first. -/
theorem c6_sort_by_investment_boost_witness :
    sort_by_investment
        [("NVDA".toList, ⟨{ market := some "US".toList, invested_inr := some 100 }, []⟩),
         ("INFY".toList, ⟨{ market := some "IN".toList, invested_inr := some 100 }, []⟩)]
      = [("INFY".toList, ⟨{ market := some "IN".toList, invested_inr := some 100 }, []⟩),
         ("NVDA".toList, ⟨{ market := some "US".toList, invested_inr := some 100 }, []⟩)] :=
  c6_sort_by_investment_boost.2 "INFY".toList "NVDA".toList
    ⟨{ market := some "IN".toList, invested_inr := some 100 }, []⟩
    ⟨{ market := some "US".toList, invested_inr := some 100 }, []⟩
    100 rfl (by decide) rfl rfl (by norm_num)

/-- C7: an article without a publication timestamp is recent for every
window (`is_recent` returns true), and the Per-Holding Filter Pipeline
never drops such an article for staleness: when every input article
lacks a timestamp, the pipeline's dropped-too-old counter is zero. -/
theorem c7_no_timestamp_never_stale :
    (∀ (a : Article) (days_back now : Int),
       a.published = none → is_recent a days_back now = true) ∧
    ∀ (pSim : List Char → List Char → ℚ) (articles : List Article) (stock : Stock)
      (days_back : Int) (max_articles : Nat) (fsf : Bool) (now : Int),
      (∀ a ∈ articles, a.published = none) →
      (filter_news_for_stock pSim articles stock days_back max_articles fsf now).2.too_old
        = 0 := by
  constructor
  · intro a d n h
    simp [is_recent, h]
  · intro pSim articles stock d m fsf now h
    unfold filter_news_for_stock
    exact filterLoop_too_old pSim stock (now - d * 86400) m fsf articles [] [] {} h

/-- C7 witness: a timestamp-less article is recent in a 7-day window,
and a run over one timestamp-less article drops nothing as too old. -/
theorem c7_no_timestamp_never_stale_witness :
    is_recent {} 7 0 = true ∧
      (filter_news_for_stock (fun _ _ => 0) [{ title := "x".toList }] {} 1 5 false 0).2.too_old
        = 0 :=
  ⟨c7_no_timestamp_never_stale.1 {} 7 0 rfl,
   c7_no_timestamp_never_stale.2 (fun _ _ => 0) [{ title := "x".toList }] {} 1 5 false 0
     (by intro a ha; simp at ha; subst ha; rfl)⟩

/-- C8: an article from a trusted per-holding source (not a sector
feed) is accepted by the relevance check unconditionally — for every
fuzzy scorer, article and holding. -/
theorem c8_trusted_always_relevant (pSim : List Char → List Char → ℚ)
    (article : Article) (stock : Stock) :
    is_article_relevant pSim article stock false = true := by
  simp [is_article_relevant]

/-- C9: duplicate detection is symmetric — if title A is flagged
against the seen-set holding the normalized form of B, then B is
flagged against the seen-set holding the normalized form of A, for
every threshold (the token-sort InDel score is a symmetric function). -/
theorem c9_duplicate_symmetric (A B : List Char) (threshold : ℚ)
    (h : is_duplicate_title A [normalize_for_dedup B] threshold = true) :
    is_duplicate_title B [normalize_for_dedup A] threshold = true := by
  simp only [is_duplicate_title, List.any_cons, List.any_nil, Bool.or_false] at h ⊢
  rw [tokenSortSim_comm]
  exact h

/-- C9 witness: symmetry instantiated at a concrete flagged pair. -/
theorem c9_duplicate_symmetric_witness :
    is_duplicate_title "Ab".toList [normalize_for_dedup "Ab".toList] 70 = true :=
  c9_duplicate_symmetric "Ab".toList "Ab".toList 70 (by
    have hs : pyJoin " ".toList (sortBool lexLe (pySplit (normalize_for_dedup "Ab".toList)))
        = "ab".toList := by decide
    have hl : lcsLen "ab".toList "ab".toList = 2 := by decide
    have hlen : ("ab".toList).length = 2 := by decide
    simp only [is_duplicate_title, List.any_cons, List.any_nil, Bool.or_false,
      decide_eq_true_eq, tokenSortSim, hs, indelSim, hl, hlen]
    norm_num)

/-- C10: the Per-Holding Filter Pipeline returns truncated copies of an
order-preserving subsequence of its input — the kept articles are
`truncArticle` images (copies with only `summary`/`body` truncated) of
a sublist of the input list, in original order; the input articles
themselves appear nowhere in the output construction (the embedding is
pure, matching `article.copy()` in the source). -/
theorem c10_filter_pure_subsequence (pSim : List Char → List Char → ℚ)
    (articles : List Article) (stock : Stock) (days_back : Int) (max_articles : Nat)
    (fsf : Bool) (now : Int) :
    ∃ sub : List Article, List.Sublist sub articles ∧
      (filter_news_for_stock pSim articles stock days_back max_articles fsf now).1
        = sub.map truncArticle := by
  unfold filter_news_for_stock
  obtain ⟨sub, hs, he⟩ := filterLoop_sublist pSim stock (now - days_back * 86400)
    max_articles fsf articles [] [] {}
  exact ⟨sub, hs, by simpa using he⟩
